import Mathlib

/-!
Shallow embedding of `esphomerelease/changelog.py`: the changelog generation
algorithm (PR eligibility filtering, line formatting, label classification and
document assembly), together with theorems checking the specification's claims
about it.
-/

/-- Author data carried by a pull-request record (`pr.user`). -/
structure Author where
  login : String
  html_url : String
deriving DecidableEq

/-- A pull-request record as consumed by `changelog.generate`.  `milestone`
models the optional milestone object's `title` field (`none` when the record
has no milestone); `merged_at` is the merge timestamp, used only for
ordering. -/
structure PullRequest where
  number : Nat
  title : String
  html_url : String
  user : Author
  labels : List String
  milestone : Option String
  merged_at : Nat
deriving DecidableEq

/-- Modelled from the spec: the `Version` class lives in
`esphomerelease/model.py`, which is not part of the sources; §3 of the spec
gives the identifier as `(major, minor, patch, beta : bool)`. -/
structure Version where
  major : Nat
  minor : Nat
  patch : Nat
  beta : Bool
deriving DecidableEq

/-- Modelled from the spec: strict comparison of version identifiers,
"lexicographic over `(major, minor, patch)`, with a non-beta version always
greater than a beta version sharing the same `(major, minor, patch)`"
(spec §3); the implementation is in `esphomerelease/model.py`, not in the
sources. -/
def Version.lt (a b : Version) : Bool :=
  decide (a.major < b.major) ||
    (a.major == b.major && (decide (a.minor < b.minor) ||
      (a.minor == b.minor && (decide (a.patch < b.patch) ||
        (a.patch == b.patch && (a.beta && !b.beta))))))

/-- Modelled from the spec: non-strict comparison derived from `Version.lt`
(spec §4.1 requires `<=` and `>` over the total order of §3). -/
def Version.le (a b : Version) : Bool :=
  Version.lt a b || a == b

/-- Splitting of a character list on a separator, with the semantics of
splitting a string on a one-character separator ("a.b" gives two parts, a
leading, trailing or doubled separator gives empty parts). -/
def splitChars (sep : Char) : List Char → List (List Char)
  | [] => [[]]
  | c :: rest =>
    let r := splitChars sep rest
    if c == sep then [] :: r
    else
      match r with
      | [] => [[c]]
      | h :: t => (c :: h) :: t

/-- Reading of a non-empty all-digit character list as a decimal number. -/
def charsToNat? (l : List Char) : Option Nat :=
  if l = [] then none
  else
    l.foldl
      (fun acc c =>
        match acc with
        | none => none
        | some n => if c.isDigit then some (n * 10 + (c.toNat - 48)) else none)
      (some 0)

/-- Modelled from the spec: `Version.parse` lives in `esphomerelease/model.py`,
not in the sources.  Per spec §3/§4.1 a version string has a
"numeric-with-optional-beta-suffix shape" (`major.minor.patch`, optionally
followed by `b<number>`); any other text is a parse failure (the `ValueError`
condition), which is distinct from the milestone being absent. -/
def Version.parse (s : String) : Option Version :=
  match splitChars '.' s.data with
  | [ma, mi, pa] =>
    match charsToNat? ma, charsToNat? mi with
    | some major, some minor =>
      match splitChars 'b' pa with
      | [p] =>
        match charsToNat? p with
        | some patch => some (Version.mk major minor patch false)
        | none => none
      | [p, bn] =>
        match charsToNat? p, charsToNat? bn with
        | some patch, some _ => some (Version.mk major minor patch true)
        | _, _ => none
      | _ => none
    | _, _ => none
  | _ => none

/-- Modelled from the spec: display form of a version (`str` of the `Version`
class in `esphomerelease/model.py`, not in the sources): the dotted numeric
triple, with a beta marker for beta versions. -/
def Version.str (v : Version) : String :=
  toString v.major ++ "." ++ toString v.minor ++ "." ++ toString v.patch ++
    (if v.beta then "b" else "")

/-- `LABEL_HEADERS` from `changelog.py` (a Python dict; iteration order is its
insertion order, so it is embedded as an ordered list of pairs). -/
def LABEL_HEADERS : List (String × String) :=
  [("new-feature", "New Features"),
   ("new-component", "New Components"),
   ("new-platform", "New Platforms"),
   ("breaking-change", "Breaking Changes"),
   ("cherry-picked", "Beta Changes"),
   ("notable-change", "Notable Changes")]

/-- `LINE_LABELS` from `changelog.py`. -/
def LINE_LABELS : List String :=
  ["new-feature", "new-component", "new-platform", "breaking-change",
   "notable-change"]

/-- `DEPENDENCY_LABELS` from `changelog.py`. -/
def DEPENDENCY_LABELS : List String := ["dependencies"]

/-- Underline character used by `format_heading` in non-markdown mode: the
Python source indexes the dict `{1: "=", 2: "-", 3: "^"}` with the level
(raising `KeyError` for any other level; `generate` only ever passes 2 or 3). -/
def headingUnderlineChar (level : Nat) : Char :=
  match level with
  | 1 => '='
  | 2 => '-'
  | _ => '^'

/-- `format_heading` from `changelog.py`. -/
def format_heading (title : String) (markdown : Bool) (level : Nat) : String :=
  if markdown then
    String.mk (List.replicate level '#') ++ " " ++ title ++ "\n"
  else
    title ++ "\n" ++
      String.mk (List.replicate title.length (headingUnderlineChar level)) ++ "\n"

/-- `format_line` from `changelog.py`; the project argument is reduced to its
`shortname`, the only field the function reads. -/
def format_line (shortname : String) (pr : PullRequest) (markdown : Bool)
    (include_author : Bool) : String :=
  let username := pr.user.login
  let pr_link :=
    if markdown then
      "[" ++ shortname ++ "#" ++ toString pr.number ++ "](" ++ pr.html_url ++ ")"
    else
      ":" ++ shortname ++ "pr:`" ++ toString pr.number ++ "`"
  let user_link :=
    if markdown then
      "[@" ++ username ++ "](" ++ pr.user.html_url ++ ")"
    else
      ":ghuser:`" ++ username ++ "`"
  let line := "- " ++ pr.title ++ " " ++ pr_link
  if include_author then line ++ " by " ++ user_link else line

/-- The `job` closure inside `generate` (changelog.py lines 89–112).  The first
component is the record appended to `lines` (with its possibly adjusted label
list), or `none` when the record is dropped; the second component is the list
of diagnostics printed.  A missing milestone makes the subscript
`pr.milestone["title"]` raise `TypeError`; comparing a parsed version against a
`None` head version likewise raises `TypeError`; both are caught by the handler
that prints the no-milestone diagnostic, keeps the label list unchanged and
lets the record be appended.  An unparsable milestone raises `ValueError`,
whose handler prints a diagnostic and removes `cherry-picked`. -/
def job (base_version : Version) (head_version : Option Version)
    (pr : PullRequest) : Option (PullRequest × List String) × List String :=
  let labels : List String := pr.labels
  if labels.contains "reverted" then
    (none, [])
  else
    if labels.contains "cherry-picked" then
      match pr.milestone with
      | none =>
        (some (pr, labels), ["PR " ++ toString pr.number ++ " has no milestone"])
      | some milestone =>
        match Version.parse milestone with
        | none =>
          (some (pr, labels.erase "cherry-picked"),
            ["Could not parse milestone " ++ milestone])
        | some pick_version =>
          if Version.le pick_version base_version then
            (none, [])
          else
            match head_version with
            | none =>
              (some (pr, labels),
                ["PR " ++ toString pr.number ++ " has no milestone"])
            | some hv =>
              if Version.lt hv pick_version then
                (none, [])
              else
                (some (pr, labels), [])
    else
      (some (pr, labels), [])

/-- The `lines` list of `generate` after the job loop and the sort
(changelog.py lines 114–119): the surviving records, sorted by merge
timestamp.  The concurrent append order is unspecified, so the embedding
applies the jobs in input order; the sort is the synchronization point that
restores determinism. -/
def includedLines (base_version : Version) (head_version : Option Version)
    (prs : List PullRequest) : List (PullRequest × List String) :=
  (prs.filterMap fun pr => (job base_version head_version pr).1).mergeSort
    fun a b => decide (a.1.merged_at ≤ b.1.merged_at)

/-- The `msg` built for one entry of `lines` (changelog.py lines 125–133): the
formatted line followed by a parenthetical tag for each label of the record's
label list that belongs to `LINE_LABELS`, joined by spaces. -/
def format_msg (shortname : String) (markdown include_author : Bool)
    (pr : PullRequest) (labels : List String) : String :=
  let parts := format_line shortname pr markdown include_author ::
    (labels.filter fun label => LINE_LABELS.contains label).map
      fun label => "(" ++ label ++ ")"
  String.intercalate " " parts

/-- The `changes` list of `generate` (changelog.py lines 122–136): every
message, except that in section mode a record carrying a label of
`DEPENDENCY_LABELS` is skipped. -/
def changesOf (shortname : String) (markdown include_author : Bool)
    (with_sections : Bool) (lines : List (PullRequest × List String)) :
    List String :=
  (lines.filter fun x =>
      !with_sections || !(DEPENDENCY_LABELS.any fun label => x.2.contains label)).map
    fun x => format_msg shortname markdown include_author x.1 x.2

/-- One group of the `label_groups` mapping (changelog.py lines 82, 138–139):
for each entry of `lines`, its message is appended once per occurrence of the
label in the record's label list. -/
def labelGroup (shortname : String) (markdown include_author : Bool)
    (lines : List (PullRequest × List String)) (label : String) : List String :=
  lines.flatMap fun x =>
    x.2.filterMap fun l =>
      if l == label then
        some (format_msg shortname markdown include_author x.1 x.2)
      else none

/-- The `depdendency_prs` list (changelog.py lines 194–199, keeping the
source's spelling).  The source iterates the keys of `label_groups` filtered to
`DEPENDENCY_LABELS`; since dict keys are unique and `DEPENDENCY_LABELS` is the
singleton `["dependencies"]`, that is the same list as iterating
`DEPENDENCY_LABELS` itself. -/
def depdendency_prs (shortname : String) (markdown include_author : Bool)
    (lines : List (PullRequest × List String)) : List String :=
  DEPENDENCY_LABELS.flatMap fun label =>
    labelGroup shortname markdown include_author lines label

/-- The patch-release branch of the heading logic (changelog.py lines
149–155): only the non-markdown format emits the dated release heading; the
current date is passed in explicitly (`nowMonth`/`nowDay` stand for
`datetime.now()`). -/
def patchHeadingPart (markdown : Bool) (hv : Version) (nowMonth : String)
    (nowDay : Nat) : List String :=
  if !markdown then
    [format_heading
      ("Release " ++ Version.str hv ++ " - " ++ nowMonth ++ " " ++ toString nowDay)
      false 2]
  else []

/-- The full-sections branch of the heading logic (changelog.py lines
156–175): the "Full list of changes" heading, one sub-heading plus lines per
non-empty label group in `LABEL_HEADERS` order (the "Beta Changes" entry is
skipped for non-prereleases before its group is even consulted), and the
final "All changes" sub-heading. -/
def fullListPart (shortname : String) (markdown include_author : Bool)
    (prerelease : Bool) (lines : List (PullRequest × List String)) :
    List String :=
  format_heading "Full list of changes" markdown 2 ::
    ((LABEL_HEADERS.flatMap fun entry =>
        if !prerelease && entry.2 == "Beta Changes" then []
        else
          let prs := labelGroup shortname markdown include_author lines entry.1
          if prs.isEmpty then []
          else format_heading entry.2 markdown 3 :: prs ++ [""]) ++
      [format_heading "All changes" markdown 3])

/-- The first `if with_sections` block of the assembly (changelog.py lines
143–175): selects between the patch-release heading and the full-sections
headings, and emits nothing when section mode is off. -/
def sectionsPart (shortname : String) (markdown include_author : Bool)
    (prerelease with_sections : Bool) (head_version : Option Version)
    (nowMonth : String) (nowDay : Nat)
    (lines : List (PullRequest × List String)) : List String :=
  if with_sections then
    match head_version with
    | some hv =>
      if hv.patch != 0 && !hv.beta then
        patchHeadingPart markdown hv nowMonth nowDay
      else
        fullListPart shortname markdown include_author prerelease lines
    | none => fullListPart shortname markdown include_author prerelease lines
  else []

/-- The second `if with_sections` block of the assembly (changelog.py lines
177–190): in section mode the unified list is wrapped in the format-specific
collapsible block, otherwise it is emitted flat. -/
def collapsePart (markdown with_sections : Bool) (changes : List String) :
    List String :=
  if with_sections then
    if markdown then
      "<details>" :: "<summary>Show</summary>" :: "" :: changes ++ ["</details>"]
    else
      ".. collapse:: Show" :: "    :open:" :: "" ::
        changes.map fun line => "    " ++ line
  else changes

/-- The third `if with_sections` block of the assembly (changelog.py lines
193–213): when section mode is on and some dependency-labelled lines exist,
the "Dependency Changes" heading followed by those lines in a collapsible
block. -/
def depSection (shortname : String) (markdown include_author : Bool)
    (with_sections : Bool) (lines : List (PullRequest × List String)) :
    List String :=
  if with_sections then
    let dep := depdendency_prs shortname markdown include_author lines
    if dep.isEmpty then []
    else
      format_heading "Dependency Changes" markdown 3 ::
        (if markdown then
          "<details>" :: "<summary>Show</summary>" :: "" :: dep ++ ["</details>"]
        else
          ".. collapse:: Show" :: "" ::
            (dep.map fun line => "    " ++ line) ++ [""])
  else []

/-- The `outp` list of `generate` (changelog.py lines 141–213): heading part,
unified-list part, the unconditional trailing empty entry, then the dependency
part. -/
def assembleDoc (shortname : String) (markdown include_author : Bool)
    (prerelease with_sections : Bool) (head_version : Option Version)
    (nowMonth : String) (nowDay : Nat)
    (lines : List (PullRequest × List String)) : List String :=
  sectionsPart shortname markdown include_author prerelease with_sections
      head_version nowMonth nowDay lines ++
    collapsePart markdown with_sections
      (changesOf shortname markdown include_author with_sections lines) ++
    [""] ++
    depSection shortname markdown include_author with_sections lines

/-- `generate` from `changelog.py`: filter and adjust each fetched record via
`job`, sort by merge timestamp, assemble the document and join it with
newlines. -/
def generate (shortname : String) (base_version : Version)
    (head_version : Option Version) (prerelease : Bool) (markdown : Bool)
    (with_sections : Bool) (include_author : Bool) (nowMonth : String)
    (nowDay : Nat) (prs : List PullRequest) : String :=
  String.intercalate "\n"
    (assembleDoc shortname markdown include_author prerelease with_sections
      head_version nowMonth nowDay
      (includedLines base_version head_version prs))

/-- Substring test helper (auxiliary recursion): whether `needle` occurs
starting at some suffix of `hay`. -/
def containsSubAux (needle : List Char) : List Char → Bool
  | [] => needle.isPrefixOf []
  | c :: rest => needle.isPrefixOf (c :: rest) || containsSubAux needle rest

/-- Whether `needle` occurs as a contiguous substring of `hay`; used to state
that a phrase does or does not appear in a rendered document. -/
def containsSub (hay needle : String) : Bool :=
  containsSubAux needle.data hay.data

/-- Base version `2024.2.0` used by concrete test inputs. -/
def vBase : Version := Version.mk 2024 2 0 false

/-- Head version `2024.3.1` used by concrete test inputs. -/
def vHead : Version := Version.mk 2024 3 1 false

/-- Concrete record used by the C1 witness and counterexample. -/
def c1pr : PullRequest :=
  { number := 100, title := "Add thing", html_url := "https://e/100",
    user := { login := "alice", html_url := "https://g/alice" },
    labels := [], milestone := none, merged_at := 1 }

/-- Concrete dependency-bump record used by the C2 counterexample and
witness. -/
def c2pr : PullRequest :=
  { number := 200, title := "Bump lib", html_url := "https://e/200",
    user := { login := "bot", html_url := "https://g/bot" },
    labels := ["dependencies"], milestone := none, merged_at := 2 }

/-- Concrete record used by the C3 counterexample. -/
def c3pr : PullRequest :=
  { number := 300, title := "Fix bug", html_url := "https://e/300",
    user := { login := "bob", html_url := "https://g/bob" },
    labels := [], milestone := none, merged_at := 3 }

/-- Non-beta patch head version `2024.3.2` used by the C3 counterexample. -/
def c3head : Version := Version.mk 2024 3 2 false

/-- Concrete cherry-picked record with milestone `2024.3.0`, used by the C4
witness. -/
def c4pr : PullRequest :=
  { number := 400, title := "Port fix", html_url := "https://e/400",
    user := { login := "carol", html_url := "https://g/carol" },
    labels := ["cherry-picked"], milestone := some "2024.3.0", merged_at := 4 }

/-- Concrete cherry-picked record with the unparsable milestone `latest` and a
dependency label, used by the C5 counterexample. -/
def c5pr : PullRequest :=
  { number := 500, title := "Bump dep", html_url := "https://e/500",
    user := { login := "bot", html_url := "https://g/bot" },
    labels := ["cherry-picked", "dependencies"], milestone := some "latest",
    merged_at := 5 }

/-- Concrete cherry-picked record with the unparsable milestone `latest` and no
dependency label, used by the C5 witness. -/
def c5pr2 : PullRequest :=
  { number := 501, title := "Tweak", html_url := "https://e/501",
    user := { login := "dan", html_url := "https://g/dan" },
    labels := ["cherry-picked", "new-feature"], milestone := some "latest",
    merged_at := 6 }

/-- Concrete cherry-picked record with no milestone, used by the C6 witness. -/
def c6pr : PullRequest :=
  { number := 600, title := "Backport", html_url := "https://e/600",
    user := { login := "eve", html_url := "https://g/eve" },
    labels := ["cherry-picked"], milestone := none, merged_at := 7 }

/-- Concrete record with both a feature label and a dependency label, used by
the C7 witness. -/
def c7pr : PullRequest :=
  { number := 700, title := "New sensor", html_url := "https://e/700",
    user := { login := "fred", html_url := "https://g/fred" },
    labels := ["new-feature", "dependencies"], milestone := none,
    merged_at := 8 }

/-- Concrete record merged second but listed first, used by the C8 witness. -/
def c8pr1 : PullRequest :=
  { number := 800, title := "Late change", html_url := "https://e/800",
    user := { login := "gil", html_url := "https://g/gil" },
    labels := ["new-feature"], milestone := none, merged_at := 20 }

/-- Concrete record merged first but listed second, used by the C8 witness. -/
def c8pr2 : PullRequest :=
  { number := 801, title := "Early change", html_url := "https://e/801",
    user := { login := "hal", html_url := "https://g/hal" },
    labels := ["new-feature"], milestone := none, merged_at := 10 }

/-- Concrete reverted record carrying several other labels, used by the C9
witness. -/
def c9rev : PullRequest :=
  { number := 900, title := "Broken change", html_url := "https://e/900",
    user := { login := "ida", html_url := "https://g/ida" },
    labels := ["new-feature", "reverted", "dependencies"], milestone := none,
    merged_at := 9 }

/-- Concrete surviving record, used by the C9 witness. -/
def c9ok : PullRequest :=
  { number := 901, title := "Good change", html_url := "https://e/901",
    user := { login := "joe", html_url := "https://g/joe" },
    labels := ["new-feature"], milestone := none, merged_at := 10 }

/-- Membership and the boolean `contains` agree on string lists. -/
theorem contains_eq_true_iff_mem (l : List String) (a : String) :
    l.contains a = true ↔ a ∈ l := by
  simp [List.contains_iff_exists_mem_beq, beq_iff_eq, eq_comm]

/-- The version order is total: `a <= b` holds exactly when `b < a` fails. -/
theorem Version.le_eq_not_lt (a b : Version) : Version.le a b = !Version.lt b a := by
  cases a with
  | mk a1 a2 a3 ab =>
    cases b with
    | mk b1 b2 b3 bb =>
      rw [Bool.eq_iff_iff]
      simp only [Version.le, Version.lt, Bool.or_eq_true, Bool.and_eq_true,
        decide_eq_true_eq, beq_iff_eq, Version.mk.injEq, Bool.not_eq_true',
        Bool.or_eq_false_iff, Bool.and_eq_false_iff, decide_eq_false_iff_not,
        Bool.not_eq_true]
      cases ab <;> cases bb <;> simp <;> omega

/-- Inversion of `job`: when the record survives, it is returned unchanged
except that its label list is either kept or has `cherry-picked` removed, and
it cannot carry the `reverted` label. -/
theorem job_some (base : Version) (head : Option Version) (pr : PullRequest)
    (x : PullRequest × List String) (h : (job base head pr).1 = some x) :
    x.1 = pr ∧ (x.2 = pr.labels ∨ x.2 = pr.labels.erase "cherry-picked") ∧
    pr.labels.contains "reverted" = false := by
  by_cases hrev : "reverted" ∈ pr.labels
  · simp [job, hrev] at h
  · have hrevb : pr.labels.contains "reverted" = false :=
      Bool.eq_false_iff.mpr fun hc => hrev ((contains_eq_true_iff_mem _ _).mp hc)
    have hx : x = (pr, pr.labels) ∨ x = (pr, pr.labels.erase "cherry-picked") := by
      by_cases hcp : "cherry-picked" ∈ pr.labels
      · cases hm : pr.milestone with
        | none =>
          rw [show (job base head pr).1 = some (pr, pr.labels) from by
            simp [job, hrev, hcp, hm]] at h
          exact Or.inl (Option.some.inj h).symm
        | some m =>
          cases hp : Version.parse m with
          | none =>
            rw [show (job base head pr).1 =
                some (pr, pr.labels.erase "cherry-picked") from by
              simp [job, hrev, hcp, hm, hp]] at h
            exact Or.inr (Option.some.inj h).symm
          | some pick =>
            by_cases hle : Version.le pick base = true
            · simp [job, hrev, hcp, hm, hp, hle] at h
            · cases hh : head with
              | none =>
                rw [show (job base head pr).1 = some (pr, pr.labels) from by
                  simp [job, hrev, hcp, hm, hp, hle, hh]] at h
                exact Or.inl (Option.some.inj h).symm
              | some hv =>
                by_cases hlt : Version.lt hv pick = true
                · simp [job, hrev, hcp, hm, hp, hle, hh, hlt] at h
                · rw [show (job base head pr).1 = some (pr, pr.labels) from by
                    simp [job, hrev, hcp, hm, hp, hle, hh, hlt]] at h
                  exact Or.inl (Option.some.inj h).symm
      · rw [show (job base head pr).1 = some (pr, pr.labels) from by
          simp [job, hrev, hcp]] at h
        exact Or.inl (Option.some.inj h).symm
    rcases hx with rfl | rfl
    · exact ⟨rfl, Or.inl rfl, hrevb⟩
    · exact ⟨rfl, Or.inr rfl, hrevb⟩

/-- A label that does not occur in a label list contributes nothing to that
label's group. -/
theorem filterMap_label_nil (lab m : String) (l : List String) (h : lab ∉ l) :
    (l.filterMap fun s => if s == lab then some m else none) = [] := by
  induction l with
  | nil => rfl
  | cons a t ih =>
    rw [List.filterMap_cons]
    have ha : (a == lab) = false := by
      refine beq_eq_false_iff_ne.mpr ?_
      intro e
      exact h (e ▸ List.mem_cons_self a t)
    rw [if_neg (by simp [ha])]
    exact ih fun hm => h (List.mem_cons_of_mem a hm)

/-- With no duplicate labels, a record contributes at most one line to any
label group. -/
theorem filterMap_label_sublist (lab m : String) (l : List String)
    (h : l.Nodup) :
    List.Sublist (l.filterMap fun s => if s == lab then some m else none) [m] := by
  induction l with
  | nil => exact List.nil_sublist _
  | cons a t ih =>
    rw [List.filterMap_cons]
    by_cases ha : a = lab
    · subst ha
      rw [if_pos (by simp)]
      rw [filterMap_label_nil a m t (List.nodup_cons.mp h).1]
    · rw [if_neg (by simp [ha])]
      exact ih (List.nodup_cons.mp h).2

/-- With duplicate-free label lists, each label group is a sublist of the
globally ordered rendered sequence. -/
theorem labelGroup_sublist (shortname : String) (markdown include_author : Bool)
    (lines : List (PullRequest × List String)) (lab : String)
    (h : ∀ x ∈ lines, x.2.Nodup) :
    List.Sublist (labelGroup shortname markdown include_author lines lab)
      (lines.map fun x => format_msg shortname markdown include_author x.1 x.2) := by
  unfold labelGroup
  induction lines with
  | nil => simp
  | cons y t ih =>
    rw [List.flatMap_cons, List.map_cons]
    have h1 := filterMap_label_sublist lab
      (format_msg shortname markdown include_author y.1 y.2) y.2
      (h y (List.mem_cons_self y t))
    have h2 := ih fun x hx => h x (List.mem_cons_of_mem y hx)
    exact h1.append h2

/-- A record's rendered message belongs to the group of every label the record
carries. -/
theorem mem_labelGroup (shortname : String) (markdown include_author : Bool)
    (lines : List (PullRequest × List String)) (x : PullRequest × List String)
    (hx : x ∈ lines) (lab : String) (hmem : lab ∈ x.2) :
    format_msg shortname markdown include_author x.1 x.2 ∈
      labelGroup shortname markdown include_author lines lab := by
  unfold labelGroup
  rw [List.mem_flatMap]
  exact ⟨x, hx, List.mem_filterMap.mpr ⟨lab, hmem, by simp⟩⟩

/-- C1: the claim is false on the code.  The inline-annotation tags are
emitted by iterating the record's own label list, so swapping two annotation
labels in the label list changes the rendered line: a concrete permutation of
the label list yields two different lines. -/
theorem c1_counterexample :
    format_msg "esphome" true true c1pr ["new-component", "new-feature"] ≠
      format_msg "esphome" true true c1pr ["new-feature", "new-component"] := by
  decide

/-- C1 (amended): the parenthetical tags follow the iteration order of the
record's own label list, not the declared order of `LINE_LABELS`; hence two
label lists whose restrictions to the inline-annotation set coincide (same
annotation labels in the same relative order) render the same line. -/
theorem c1_tags_follow_record_label_list (shortname : String)
    (markdown include_author : Bool) (pr : PullRequest)
    (labels1 labels2 : List String)
    (h : labels1.filter (fun label => LINE_LABELS.contains label) =
      labels2.filter fun label => LINE_LABELS.contains label) :
    format_msg shortname markdown include_author pr labels1 =
      format_msg shortname markdown include_author pr labels2 := by
  unfold format_msg
  rw [h]

/-- C1 witness: the amended statement applied to two concrete label lists that
differ only in non-annotation labels. -/
theorem c1_tags_witness :
    format_msg "esphome" true true c1pr ["new-feature", "docs"] =
      format_msg "esphome" true true c1pr ["docs", "new-feature"] :=
  c1_tags_follow_record_label_list "esphome" true true c1pr
    ["new-feature", "docs"] ["docs", "new-feature"] (by decide)

/-- C4: for a non-reverted record carrying `cherry-picked` whose milestone
parses to `pick`, the record is dropped by `job` exactly when
`pick <= base_version` or `pick > head_version`, and is kept (with its label
list unchanged) whenever `base_version < pick <= head_version`. -/
theorem c4_cherry_pick_window (base hv pick : Version) (pr : PullRequest)
    (m : String)
    (hrev : pr.labels.contains "reverted" = false)
    (hcp : pr.labels.contains "cherry-picked" = true)
    (hm : pr.milestone = some m)
    (hp : Version.parse m = some pick) :
    ((job base (some hv) pr).1 = none ↔
      (Version.le pick base = true ∨ Version.lt hv pick = true)) ∧
    ((Version.lt base pick = true ∧ Version.le pick hv = true) →
      (job base (some hv) pr).1 = some (pr, pr.labels)) := by
  have hrev' : ¬ "reverted" ∈ pr.labels := by simpa using hrev
  have hcp' : "cherry-picked" ∈ pr.labels := (contains_eq_true_iff_mem _ _).mp hcp
  constructor
  · cases hle : Version.le pick base <;> cases hlt : Version.lt hv pick <;>
      simp [job, hrev', hcp', hm, hp, hle, hlt]
  · rintro ⟨h1, h2⟩
    have e1 : Version.le pick base = false := by
      rw [Version.le_eq_not_lt, h1]
      rfl
    have e2 : Version.lt hv pick = false := by
      have e := (Version.le_eq_not_lt pick hv).symm.trans h2
      cases hb : Version.lt hv pick
      · rfl
      · rw [hb] at e
        simp at e
    simp [job, hrev', hcp', hm, hp, e1, e2]

/-- C4 witness: a cherry-picked record with milestone `2024.3.0`, base
`2024.2.0` and head `2024.3.1` is kept with its labels unchanged. -/
theorem c4_window_witness :
    (job vBase (some vHead) c4pr).1 = some (c4pr, c4pr.labels) :=
  (c4_cherry_pick_window vBase vHead (Version.mk 2024 3 0 false) c4pr "2024.3.0"
    (by decide) (by decide) rfl (by decide)).2 ⟨by decide, by decide⟩

/-- C6: for a non-reverted record carrying `cherry-picked` with no milestone,
`job` prints the no-milestone diagnostic, keeps the label list unchanged
(`cherry-picked` is not removed) and keeps the record without any
version-range filtering. -/
theorem c6_missing_milestone (base : Version) (head : Option Version)
    (pr : PullRequest)
    (hrev : pr.labels.contains "reverted" = false)
    (hcp : pr.labels.contains "cherry-picked" = true)
    (hm : pr.milestone = none) :
    job base head pr =
      (some (pr, pr.labels),
        ["PR " ++ toString pr.number ++ " has no milestone"]) := by
  have hrev' : ¬ "reverted" ∈ pr.labels := by simpa using hrev
  have hcp' : "cherry-picked" ∈ pr.labels := (contains_eq_true_iff_mem _ _).mp hcp
  simp [job, hrev', hcp', hm]

/-- C6 witness: the concrete milestone-less cherry-picked record is kept
unchanged, with the diagnostic. -/
theorem c6_missing_milestone_witness :
    job vBase (some vHead) c6pr =
      (some (c6pr, c6pr.labels),
        ["PR " ++ toString c6pr.number ++ " has no milestone"]) :=
  c6_missing_milestone vBase (some vHead) c6pr (by decide) (by decide) rfl

/-- C9: a record carrying `reverted` is dropped by `job` whatever its other
labels, and consequently every record surviving into the sorted `lines` list
(from which the unified list, every label group and the dependency block are
built) does not carry `reverted`. -/
theorem c9_reverted_excluded (base : Version) (head : Option Version)
    (prs : List PullRequest) :
    (∀ pr : PullRequest, pr.labels.contains "reverted" = true →
      job base head pr = (none, [])) ∧
    ∀ x ∈ includedLines base head prs, x.1.labels.contains "reverted" = false := by
  constructor
  · intro pr h
    simp [job, (contains_eq_true_iff_mem _ _).mp h]
  · intro x hx
    rw [includedLines, List.mem_mergeSort] at hx
    obtain ⟨pr, _, hjob⟩ := List.mem_filterMap.mp hx
    obtain ⟨h1, _, h3⟩ := job_some base head pr x hjob
    rw [h1]
    exact h3

/-- C9 witness: on a concrete pair of records, the reverted one maps to
nothing and the survivor is free of the `reverted` label. -/
theorem c9_reverted_witness :
    job vBase (some vHead) c9rev = (none, []) ∧
    (c9ok, c9ok.labels).1.labels.contains "reverted" = false :=
  ⟨(c9_reverted_excluded vBase (some vHead) [c9rev, c9ok]).1 c9rev (by decide),
   (c9_reverted_excluded vBase (some vHead) [c9ok]).2 (c9ok, c9ok.labels)
    (by rw [includedLines,
          show ([c9ok].filterMap fun pr => (job vBase (some vHead) pr).1) =
            [(c9ok, c9ok.labels)] from by decide]
        rw [List.mergeSort_of_sorted (by decide)]
        decide)⟩

/-- C5: the claim is false on the code as universally stated.  A cherry-picked
record with unparsable milestone that also carries a dependency label is
included (with `cherry-picked` removed), yet it is absent from the unified
list when section mode is active, because the dependency filter removes it:
on this concrete input the record survives into `lines` but `changes` is
empty. -/
theorem c5_counterexample :
    includedLines vBase (some vHead) [c5pr] = [(c5pr, ["dependencies"])] ∧
    changesOf "esphome" true true true
      (includedLines vBase (some vHead) [c5pr]) = [] := by
  have h : includedLines vBase (some vHead) [c5pr] = [(c5pr, ["dependencies"])] := by
    rw [includedLines,
      show ([c5pr].filterMap fun pr => (job vBase (some vHead) pr).1) =
        [(c5pr, ["dependencies"])] from by decide]
    rw [List.mergeSort_of_sorted (by decide)]
  rw [h]
  exact ⟨rfl, by decide⟩

/-- C5 (amended): for a non-reverted record carrying `cherry-picked` whose
milestone is present but unparsable, `job` prints the parse diagnostic,
removes `cherry-picked` from the label list and keeps the record with no
version-range filtering; with duplicate-free labels the resulting list no
longer contains `cherry-picked`, so the record contributes nothing to the
"Beta Changes" group, and its line reaches the unified list provided it
carries no dependency-category label while section mode is active. -/
theorem c5_unparsable_milestone (shortname : String)
    (markdown include_author : Bool) (base : Version) (head : Option Version)
    (pr : PullRequest) (m : String)
    (hrev : pr.labels.contains "reverted" = false)
    (hcp : pr.labels.contains "cherry-picked" = true)
    (hnd : pr.labels.Nodup)
    (hm : pr.milestone = some m)
    (hp : Version.parse m = none) :
    job base head pr =
      (some (pr, pr.labels.erase "cherry-picked"),
        ["Could not parse milestone " ++ m]) ∧
    "cherry-picked" ∉ pr.labels.erase "cherry-picked" ∧
    labelGroup shortname markdown include_author
      [(pr, pr.labels.erase "cherry-picked")] "cherry-picked" = [] ∧
    ((DEPENDENCY_LABELS.any fun label =>
        (pr.labels.erase "cherry-picked").contains label) = false →
      changesOf shortname markdown include_author true
        [(pr, pr.labels.erase "cherry-picked")] =
        [format_msg shortname markdown include_author pr
          (pr.labels.erase "cherry-picked")]) := by
  have hrev' : ¬ "reverted" ∈ pr.labels := by simpa using hrev
  have hcp' : "cherry-picked" ∈ pr.labels := (contains_eq_true_iff_mem _ _).mp hcp
  have herase : "cherry-picked" ∉ pr.labels.erase "cherry-picked" := by
    intro hin
    exact absurd rfl ((hnd.mem_erase_iff.mp hin).1)
  refine ⟨by simp [job, hrev', hcp', hm, hp], herase, ?_, ?_⟩
  · unfold labelGroup
    rw [List.flatMap_cons, List.flatMap_nil]
    rw [filterMap_label_nil _ _ _ herase]
    rfl
  · intro hdep
    unfold changesOf
    rw [List.filter_cons]
    simp only [hdep]
    simp

/-- C5 witness: the amended statement applied to a concrete record with
unparsable milestone `latest` and no dependency label. -/
theorem c5_unparsable_witness :
    job vBase (some vHead) c5pr2 =
      (some (c5pr2, c5pr2.labels.erase "cherry-picked"),
        ["Could not parse milestone " ++ "latest"]) ∧
    changesOf "esphome" true true true
      [(c5pr2, c5pr2.labels.erase "cherry-picked")] =
      [format_msg "esphome" true true c5pr2
        (c5pr2.labels.erase "cherry-picked")] :=
  ⟨(c5_unparsable_milestone "esphome" true true vBase (some vHead) c5pr2 "latest"
      (by decide) (by decide) (by decide) rfl (by decide)).1,
   (c5_unparsable_milestone "esphome" true true vBase (some vHead) c5pr2 "latest"
      (by decide) (by decide) (by decide) rfl (by decide)).2.2.2 (by decide)⟩

/-- C7: with section mode active, an included record carrying a
dependency-category label is excluded from the unified list (assuming the
rendered lines are pairwise distinct, which holds for distinct PR numbers),
while its line still appears in the group of every label it carries and in
the `depdendency_prs` list feeding the "Dependency Changes" block. -/
theorem c7_dependency_not_in_unified (shortname : String)
    (markdown include_author : Bool)
    (lines : List (PullRequest × List String)) (x : PullRequest × List String)
    (hx : x ∈ lines) (lab : String) (hlab : lab ∈ DEPENDENCY_LABELS)
    (hmem : lab ∈ x.2)
    (hinj : (lines.map fun y =>
      format_msg shortname markdown include_author y.1 y.2).Nodup) :
    format_msg shortname markdown include_author x.1 x.2 ∉
      changesOf shortname markdown include_author true lines ∧
    (∀ lab2 ∈ x.2, format_msg shortname markdown include_author x.1 x.2 ∈
      labelGroup shortname markdown include_author lines lab2) ∧
    format_msg shortname markdown include_author x.1 x.2 ∈
      depdendency_prs shortname markdown include_author lines := by
  refine ⟨?_, ?_, ?_⟩
  · intro hin
    unfold changesOf at hin
    obtain ⟨y, hy, hfy⟩ := List.mem_map.mp hin
    have hyl : y ∈ lines := List.mem_of_mem_filter hy
    have hxy : y = x := List.inj_on_of_nodup_map hinj hyl hx hfy
    subst hxy
    have hkeep := List.of_mem_filter hy
    simp only [Bool.not_true, Bool.false_or, Bool.not_eq_true'] at hkeep
    rw [List.any_eq_false] at hkeep
    have := hkeep lab hlab
    rw [contains_eq_true_iff_mem y.2 lab] at this
    exact this hmem
  · intro lab2 h2
    exact mem_labelGroup shortname markdown include_author lines x hx lab2 h2
  · unfold depdendency_prs
    rw [List.mem_flatMap]
    exact ⟨lab, hlab,
      mem_labelGroup shortname markdown include_author lines x hx lab hmem⟩

/-- C7 witness: the concrete record labelled both `new-feature` and
`dependencies` is out of the unified list, in the "New Features" group and in
the dependency list. -/
theorem c7_dependency_witness :
    format_msg "esphome" true true c7pr c7pr.labels ∉
      changesOf "esphome" true true true [(c7pr, c7pr.labels)] ∧
    format_msg "esphome" true true c7pr c7pr.labels ∈
      labelGroup "esphome" true true [(c7pr, c7pr.labels)] "new-feature" ∧
    format_msg "esphome" true true c7pr c7pr.labels ∈
      depdendency_prs "esphome" true true [(c7pr, c7pr.labels)] := by
  have h := c7_dependency_not_in_unified "esphome" true true
    [(c7pr, c7pr.labels)] (c7pr, c7pr.labels) (by simp) "dependencies"
    (by decide) (by decide) (by decide)
  exact ⟨h.1, h.2.1 "new-feature" (by decide), h.2.2⟩

/-- C8: the surviving records are sorted by merge timestamp ascending, and
both the unified list and (for duplicate-free label lists) every label group
are sublists of the globally ordered rendered sequence — classification
appends in input order and never re-sorts. -/
theorem c8_merge_order (shortname : String)
    (markdown include_author with_sections : Bool) (base : Version)
    (head : Option Version) (prs : List PullRequest)
    (hnd : ∀ pr ∈ prs, pr.labels.Nodup) :
    List.Pairwise (fun a b => a.1.merged_at ≤ b.1.merged_at)
      (includedLines base head prs) ∧
    List.Sublist
      (changesOf shortname markdown include_author with_sections
        (includedLines base head prs))
      ((includedLines base head prs).map fun x =>
        format_msg shortname markdown include_author x.1 x.2) ∧
    ∀ lab, List.Sublist
      (labelGroup shortname markdown include_author
        (includedLines base head prs) lab)
      ((includedLines base head prs).map fun x =>
        format_msg shortname markdown include_author x.1 x.2) := by
  refine ⟨?_, ?_, ?_⟩
  · refine List.Pairwise.imp ?_
      (List.sorted_mergeSort ?_ ?_
        (prs.filterMap fun pr => (job base head pr).1))
    · intro a b hab
      exact of_decide_eq_true hab
    · intro a b c h1 h2
      simp only [decide_eq_true_eq] at h1 h2 ⊢
      omega
    · intro a b
      simp only [Bool.or_eq_true, decide_eq_true_eq]
      omega
  · exact (List.filter_sublist _).map _
  · intro lab
    apply labelGroup_sublist
    intro x hx
    rw [includedLines, List.mem_mergeSort] at hx
    obtain ⟨pr, hpr, hjob⟩ := List.mem_filterMap.mp hx
    rcases (job_some base head pr x hjob).2.1 with h | h
    · rw [h]
      exact hnd pr hpr
    · rw [h]
      exact (hnd pr hpr).erase _

/-- C8 witness: with two concrete records supplied out of merge order, the
sorted list is ordered by timestamp and every group is a sublist of the
rendered sequence. -/
theorem c8_merge_order_witness :
    List.Pairwise (fun a b => a.1.merged_at ≤ b.1.merged_at)
      (includedLines vBase (some vHead) [c8pr1, c8pr2]) ∧
    ∀ lab, List.Sublist
      (labelGroup "esphome" true true
        (includedLines vBase (some vHead) [c8pr1, c8pr2]) lab)
      ((includedLines vBase (some vHead) [c8pr1, c8pr2]).map fun x =>
        format_msg "esphome" true true x.1 x.2) :=
  ⟨(c8_merge_order "esphome" true true true vBase (some vHead) [c8pr1, c8pr2]
      (by decide)).1,
   (c8_merge_order "esphome" true true true vBase (some vHead) [c8pr1, c8pr2]
      (by decide)).2.2⟩

/-- A label carried by no record contributes an empty group. -/
theorem labelGroup_eq_nil (shortname : String) (markdown include_author : Bool)
    (lines : List (PullRequest × List String)) (lab : String)
    (h : ∀ x ∈ lines, lab ∉ x.2) :
    labelGroup shortname markdown include_author lines lab = [] := by
  unfold labelGroup
  induction lines with
  | nil => rfl
  | cons y t ih =>
    rw [List.flatMap_cons, filterMap_label_nil _ _ _ (h y (List.mem_cons_self y t)),
      List.nil_append]
    exact ih fun x hx => h x (List.mem_cons_of_mem y hx)

/-- C2: the claim is false on the code.  With section mode disabled, a
dependency-labelled record is included, yet the rendered document contains no
"Dependency Changes" text at all: the dependency block is guarded by the
section-mode flag. -/
theorem c2_counterexample :
    includedLines vBase (some vHead) [c2pr] = [(c2pr, ["dependencies"])] ∧
    containsSub
      (generate "esphome" vBase (some vHead) false true false true "March" 1
        [c2pr])
      "Dependency Changes" = false := by
  have h : includedLines vBase (some vHead) [c2pr] = [(c2pr, ["dependencies"])] := by
    rw [includedLines,
      show ([c2pr].filterMap fun pr => (job vBase (some vHead) pr).1) =
        [(c2pr, ["dependencies"])] from by decide]
    rw [List.mergeSort_of_sorted (by decide)]
  refine ⟨h, ?_⟩
  rw [generate, h]
  decide

/-- C2 (amended): with section mode enabled, the document contains the
"Dependency Changes" heading exactly when some included record carries a
dependency-category label (the heading heads the dependency block emitted
after the main body); with section mode disabled the document is just the
flat unified list and the trailing empty entry — no dependency block is ever
emitted. -/
theorem c2_dependency_block_sections (shortname : String)
    (markdown include_author prerelease : Bool) (head : Option Version)
    (nowMonth : String) (nowDay : Nat)
    (lines : List (PullRequest × List String)) :
    ((∃ x ∈ lines, ∃ lab ∈ DEPENDENCY_LABELS, lab ∈ x.2) →
      format_heading "Dependency Changes" markdown 3 ∈
        assembleDoc shortname markdown include_author prerelease true head
          nowMonth nowDay lines) ∧
    ((∀ x ∈ lines, ∀ lab ∈ DEPENDENCY_LABELS, lab ∉ x.2) →
      depSection shortname markdown include_author true lines = []) ∧
    assembleDoc shortname markdown include_author prerelease false head
        nowMonth nowDay lines =
      changesOf shortname markdown include_author false lines ++ [""] := by
  refine ⟨?_, ?_, ?_⟩
  · rintro ⟨x, hx, lab, hlab, hmem⟩
    have hdep : format_msg shortname markdown include_author x.1 x.2 ∈
        depdendency_prs shortname markdown include_author lines := by
      unfold depdendency_prs
      rw [List.mem_flatMap]
      exact ⟨lab, hlab,
        mem_labelGroup shortname markdown include_author lines x hx lab hmem⟩
    obtain ⟨a, t, hat⟩ :=
      List.exists_cons_of_ne_nil (List.ne_nil_of_mem hdep)
    have hsec : format_heading "Dependency Changes" markdown 3 ∈
        depSection shortname markdown include_author true lines := by
      unfold depSection
      rw [hat]
      simp
    rw [assembleDoc]
    exact List.mem_append_right _ hsec
  · intro hno
    have hd : depdendency_prs shortname markdown include_author lines = [] := by
      unfold depdendency_prs
      rw [show DEPENDENCY_LABELS = ["dependencies"] from rfl]
      rw [List.flatMap_cons, List.flatMap_nil, List.append_nil]
      exact labelGroup_eq_nil shortname markdown include_author lines
        "dependencies" fun x hx => hno x hx "dependencies" (by decide)
    unfold depSection
    rw [hd]
    rfl
  · simp [assembleDoc, sectionsPart, collapsePart, depSection]

/-- C2 witness: a concrete dependency-labelled record makes the heading appear
in the section-mode document. -/
theorem c2_dependency_witness :
    format_heading "Dependency Changes" true 3 ∈
      assembleDoc "esphome" true true false true (some vHead) "March" 1
        [(c2pr, ["dependencies"])] :=
  (c2_dependency_block_sections "esphome" true true false (some vHead) "March" 1
    [(c2pr, ["dependencies"])]).1
    ⟨(c2pr, ["dependencies"]), by simp, "dependencies", by decide, by decide⟩

/-- C3: the claim is false on the code.  For the non-beta patch head version
`2024.3.2` with section mode enabled (markdown format), the rendered document
contains no "All changes" text: the heading is only emitted on the
full-sections branch, which a non-beta patch release does not take. -/
theorem c3_counterexample :
    containsSub
      (generate "esphome" vBase (some c3head) false true true true "March" 1
        [c3pr])
      "All changes" = false := by
  rw [generate,
    show includedLines vBase (some c3head) [c3pr] = [(c3pr, ([] : List String))] from by
      rw [includedLines,
        show ([c3pr].filterMap fun pr => (job vBase (some c3head) pr).1) =
          [(c3pr, ([] : List String))] from by decide]
      rw [List.mergeSort_of_sorted (by decide)]]
  decide

/-- C3 (amended): with section mode enabled, whenever the head version is
absent, has patch number 0, or is a beta (the full-sections branch), the
document ends its heading part with the "All changes" sub-heading immediately
followed by the unified list wrapped in the collapsible block (in both
formats), before the trailing empty entry and the dependency block.  (On the
non-beta patch branch the collapsible unified list is still emitted, but
without the heading, as the counterexample shows.) -/
theorem c3_all_changes_full_branch (shortname : String)
    (markdown include_author prerelease : Bool) (head : Option Version)
    (nowMonth : String) (nowDay : Nat)
    (lines : List (PullRequest × List String))
    (hfull : head = none ∨
      ∃ hv, head = some hv ∧ (hv.patch = 0 ∨ hv.beta = true)) :
    ∃ pre, assembleDoc shortname markdown include_author prerelease true head
        nowMonth nowDay lines =
      pre ++ format_heading "All changes" markdown 3 ::
        (collapsePart markdown true
          (changesOf shortname markdown include_author true lines) ++
          [""] ++ depSection shortname markdown include_author true lines) := by
  have hsec : sectionsPart shortname markdown include_author prerelease true
      head nowMonth nowDay lines =
      fullListPart shortname markdown include_author prerelease lines := by
    rcases hfull with h | ⟨hv, h, hcond⟩
    · subst h
      rfl
    · subst h
      unfold sectionsPart
      have hc : (hv.patch != 0 && !hv.beta) = false := by
        rcases hcond with h2 | h2 <;> simp [h2]
      simp [hc]
  refine ⟨format_heading "Full list of changes" markdown 2 ::
    (LABEL_HEADERS.flatMap fun entry =>
      if !prerelease && entry.2 == "Beta Changes" then []
      else
        let prs := labelGroup shortname markdown include_author lines entry.1
        if prs.isEmpty then []
        else format_heading entry.2 markdown 3 :: prs ++ [""]), ?_⟩
  rw [assembleDoc, hsec]
  unfold fullListPart
  simp [List.append_assoc]

/-- C3 witness: the amended statement applied at an absent head version with
no records. -/
theorem c3_all_changes_witness :
    ∃ pre, assembleDoc "esphome" true true false true none "March" 1 [] =
      pre ++ format_heading "All changes" true 3 ::
        (collapsePart true true (changesOf "esphome" true true true []) ++
          [""] ++ depSection "esphome" true true true []) :=
  c3_all_changes_full_branch "esphome" true true false none "March" 1 []
    (Or.inl rfl)

/-- C10: with section mode enabled and an absent head version, the assembler
takes the full-sections branch (so the patch-release heading cannot be
emitted) and the document contains both the "Full list of changes" heading
and the "All changes" sub-heading. -/
theorem c10_none_head_full_sections (shortname : String)
    (markdown include_author prerelease : Bool) (nowMonth : String)
    (nowDay : Nat) (lines : List (PullRequest × List String)) :
    sectionsPart shortname markdown include_author prerelease true none
        nowMonth nowDay lines =
      fullListPart shortname markdown include_author prerelease lines ∧
    format_heading "Full list of changes" markdown 2 ∈
      assembleDoc shortname markdown include_author prerelease true none
        nowMonth nowDay lines ∧
    format_heading "All changes" markdown 3 ∈
      assembleDoc shortname markdown include_author prerelease true none
        nowMonth nowDay lines := by
  refine ⟨rfl, ?_, ?_⟩
  · rw [assembleDoc]
    refine List.mem_append_left _ (List.mem_append_left _
      (List.mem_append_left _ ?_))
    show format_heading "Full list of changes" markdown 2 ∈
      fullListPart shortname markdown include_author prerelease lines
    unfold fullListPart
    exact List.mem_cons_self _ _
  · rw [assembleDoc]
    refine List.mem_append_left _ (List.mem_append_left _
      (List.mem_append_left _ ?_))
    show format_heading "All changes" markdown 3 ∈
      fullListPart shortname markdown include_author prerelease lines
    unfold fullListPart
    exact List.mem_cons_of_mem _
      (List.mem_append_right _ (List.mem_cons_self _ _))
